import Mathlib

/-!
Verification development for `vedo/assembly.py` (module `vedo.assembly`).

The Python module defines two composite containers, `Group` and `Assembly`,
plus `procrustes_alignment`.  This file gives a shallow embedding of the
module's own logic: the bookkeeping of the parallel `objects`/`actors`
lists, scalarbar aggregation, `__add__`, by-name lookup, `recursive_unpack`,
the `pickable` cascade, and the 2D-placement arithmetic of `clone2d`.
Operations delegated to the external VTK engine (rendering, bounds queries,
the Procrustes solver, per-object 2D projection) appear as opaque data or
as explicitly marked spec-modelled definitions.

Modelling conventions:
* Python object identity is modelled by an `Ident` value carried by every
  object; `clone` wraps the ident in `Ident.cloned`, so a clone is a
  distinct value from every object whose ident is an `Ident.orig`.
* Machine floats of positions are modelled by integers (the code only
  sums, compares with zero and adds them); renderer bounds and the 2D
  placement arithmetic of `clone2d` use `ℚ`.
* `None`-or-missing Python attributes are modelled by `Option`; a Python
  `raise` is modelled by `Except.error` / an `Option` result.
-/

/-- Python object identity.  `orig n` is an object created by external
code; `cloned i` is the fresh object produced by cloning the object with
identity `i`.  A `cloned` ident is never equal to an `orig` ident. -/
inductive Ident where
  | orig (n : Nat)
  | cloned (i : Ident)
deriving DecidableEq, Repr

/-- `true` exactly on identities of externally created (non-clone) objects. -/
def Ident.isOrig : Ident → Bool
  | .orig _ => true
  | .cloned _ => false

/-- A scalarbar value: either a plain scalarbar prop (vtkScalarBarActor,
identified by a number) or a `Group` of scalarbars (`Group(scalarbars)` in
`Assembly.__init__` / `__add__`).  For a `Group` only its list of parts is
relevant to the module's logic; parts are stored in insertion order
(`Group.__init__` does `AddPart(a.actor)` per elemential order, and
`Group._unpack` traverses parts in the same order). -/
inductive SB where
  | plain (n : Nat)
  | group (parts : List SB)
deriving Repr

/-- `isinstance(scalarbar, Group)`. -/
def SB.isGroup : SB → Bool
  | .group _ => true
  | .plain _ => false

/-- The helper `unpack_group` defined inside `Assembly.__add__`
(assembly.py lines 378-382): a `Group`-typed scalarbar is unwrapped into
its flat member list (`scalarbar.unpack()`), any other scalarbar is
returned as-is.  The Python helper returns either a list or a bare object;
both callers (`Group(...)`, which flattens nested lists, and
`Group.__iadd__`, which wraps a non-sequence into a one-element list)
treat a bare object exactly like its one-element list, so the model
returns the spliced list directly. -/
def unpack_group : SB → List SB
  | .group xs => xs
  | s => [s]

/-- The view of a renderer actor that the module's own logic reads:
its Python identity, whether it is an instance of the renderer class
`Prop3D` (`isinstance(a, vtki.get_class("Prop3D"))`), and its
`scalarbar` attribute (`none` models both a missing attribute and the
value `None`, matching the combined check
`hasattr(a, "scalarbar") and a.scalarbar is not None`). -/
structure ActorData where
  aid : Ident
  isProp3D : Bool
  scalarbar : Option SB
deriving Repr

/-- A 3D position as returned by `GetPosition()`.  The code only adds
positions and compares their coordinate sum with zero, so coordinates are
modelled as integers. -/
abbrev P3 := Int × Int × Int

/-- Coordinatewise addition of positions (the effect of `shift`). -/
def p3add (a b : P3) : P3 := (a.1 + b.1, a.2.1 + b.2.1, a.2.2 + b.2.2)

/-- `np.sum(apos)` in `Assembly.recursive_unpack` (line 456): the sum of
the three coordinates, not a zero-vector test. -/
def psum (p : P3) : Int := p.1 + p.2.1 + p.2.2

/-- A non-assembly vedo object (a `Points`/`Mesh`-like wrapper) as seen by
the module: identity, `name`, `npoints`, position, actor pickability flag,
wireframe representation flag, its own `scalarbar` attribute, and its
`actor`.  `hasActorAttr = false` models an object without an `actor`
attribute (relevant to the `getattr(obj, "actor", None)` guard of
`Assembly.__add__`); for such an object the `actor` field is never read
by a successful operation.  The object's own `scalarbar` attribute and the
`scalarbar` attribute of its actor are kept separately because
`Assembly.__init__` reads the attribute off the actor (line 248) while
`Assembly.__add__` reads it off the object (line 373). -/
structure MeshData where
  ident : Ident
  name : String
  npoints : Nat
  position : P3
  pickFlag : Bool
  wireframe : Bool
  scalarbar : Option SB
  hasActorAttr : Bool
  actor : ActorData
deriving Repr

/-- The state of an `Assembly`, parametrized by the type of contained
objects (instantiated with `VObj` below; the parametrization only breaks
the structure/inductive recursion knot).  Fields mirror the attributes
set in `Assembly.__init__`:  `ident` is the Python identity, `name`
(initialised to `"Assembly"`), the vtkAssembly position (`GetPosition`,
initially `(0,0,0)`), the vtkAssembly pickability flag (vtkAssembly
default: on), `scalarbar`, the parallel lists `objects` and `actors`, and
`parts` — the actors registered into the composite via `AddPart`. -/
structure AsmCore (Obj : Type) where
  ident : Ident
  name : String
  position : P3
  pickFlag : Bool
  scalarbar : Option SB
  objects : List Obj
  actors : List ActorData
  parts : List ActorData
deriving Repr

/-- A vedo object that can appear in an `Assembly`'s object list: either a
plain point-bearing object or a nested `Assembly`. -/
inductive VObj where
  | mesh (m : MeshData)
  | asm (a : AsmCore VObj)
deriving Repr

/-- The state of an `Assembly`. -/
abbrev AsmData := AsmCore VObj

/-- Python identity of an object. -/
def VObj.identOf : VObj → Ident
  | .mesh m => m.ident
  | .asm a => a.ident

/-- The `name` attribute. -/
def VObj.nameOf : VObj → String
  | .mesh m => m.name
  | .asm a => a.name

/-- Assignment `obj.name = n` (used by the dict constructor branch). -/
def VObj.setName (n : String) : VObj → VObj
  | .mesh m => .mesh { m with name := n }
  | .asm a => .asm { a with name := n }

/-- `isinstance(a, Assembly)`. -/
def VObj.isAsm : VObj → Bool
  | .mesh _ => false
  | .asm _ => true

/-- `isinstance(a, vedo.Points)` — point-bearing renderables; an
`Assembly` is not a `Points`. -/
def VObj.isPoints : VObj → Bool
  | .mesh _ => true
  | .asm _ => false

/-- The `npoints` attribute of a point-bearing object (only read in
`clone2d` after the `isinstance(a, vedo.Points)` filter, so the value for
an assembly is irrelevant; `0` is used). -/
def VObj.npointsOf : VObj → Nat
  | .mesh m => m.npoints
  | .asm _ => 0

/-- The actor pickability flag of an object (for an `Assembly`,
`self.actor is self`, so this is the assembly's own flag). -/
def VObj.pickOf : VObj → Bool
  | .mesh m => m.pickFlag
  | .asm a => a.pickFlag

/-- The position (`GetPosition()`) of an object. -/
def VObj.posOf : VObj → P3
  | .mesh m => m.position
  | .asm a => a.position

/-- The actor of an object, as the `ActorData` view.  For an `Assembly`,
`self.actor = self` (line 229), so the actor's identity is the assembly's
own, a vtkAssembly is a `Prop3D`, and reading `actor.scalarbar` reads the
assembly's `scalarbar` attribute. -/
def VObj.actorOf : VObj → ActorData
  | .mesh m => m.actor
  | .asm a => { aid := a.ident, isProp3D := true, scalarbar := a.scalarbar }

/-- `getattr(obj, "actor", None)`: `none` when the object has no `actor`
attribute. -/
def VObj.actorAttr : VObj → Option ActorData
  | .mesh m => if m.hasActorAttr then some m.actor else none
  | .asm a => some (VObj.actorOf (.asm a))

/-- `hasattr(obj, "scalarbar") and obj.scalarbar is not None`, read off
the object itself (the access path of `Assembly.__add__`, line 373). -/
def VObj.scalarbarAttr : VObj → Option SB
  | .mesh m => m.scalarbar
  | .asm a => a.scalarbar

/-- The core of `Assembly.__init__` (assembly.py lines 229-254), applied
to the already-normalized, already-`None`-filtered object list (the
wrappers below add the list normalization and the `None` filter):

* `self.objects = [m for m in meshs if m]` — the given list;
* `self.actors = [m.actor for m in self.objects]`;
* `for a in self.actors: if isinstance(a, Prop3D): self.AddPart(a)`;
* the same loop collects `a.scalarbar` for every actor that has a
  non-`None` `scalarbar` attribute;
* `len > 1 → Group(scalarbars)`, `len == 1 → scalarbars[0]`, else the
  initial `None`.  Note `Group(scalarbars)` flattens nested Python
  *lists* but does not unwrap `Group` *objects*: a collected scalarbar
  that is itself a `Group` stays a single nested part.

The fresh Python identity of the new assembly is passed as `i`. -/
def mkAsm (i : Ident) (objs : List VObj) : AsmData :=
  let actors := objs.map VObj.actorOf
  let parts := actors.filter (fun a => a.isProp3D)
  let scalarbars := actors.filterMap (fun a => a.scalarbar)
  { ident := i
    name := "Assembly"
    position := (0, 0, 0)
    pickFlag := true
    scalarbar :=
      match scalarbars with
      | [] => none
      | [sb] => some sb
      | l => some (SB.group l)
    objects := objs
    actors := actors
    parts := parts }

/-- `Assembly(objects...)` after the variadic/list normalization: the
elements of `ms` may be `None` (`none`), which `[m for m in meshs if m]`
drops.  `self.actors = [m.actor for m in self.objects]` raises
`AttributeError` when some object has no `actor` attribute; this failure
is the `none` result. -/
def Assembly.initList (i : Ident) (ms : List (Option VObj)) : Option AsmData :=
  let objs := ms.reduceOption
  if objs.all (fun m => (VObj.actorAttr m).isSome) then some (mkAsm i objs) else none

/-- The dictionary branch of `Assembly.__init__` (lines 218-222): each
value gets its key assigned as `name`, then construction proceeds from
the value list. -/
def Assembly.initDict (i : Ident) (named : List (String × VObj)) : Option AsmData :=
  Assembly.initList i (named.map (fun p => some (VObj.setName p.1 p.2)))

/-- Modelled from the spec: the filename branch of `Assembly.__init__`
(lines 213-216) loads a serialized archive via `vedo.file_io` (not under
`src/`) into a list of objects; per the spec ("a single serialized-archive
filename (loaded via an external deserialization routine into a list of
objects)") construction then proceeds from the loaded list. -/
def Assembly.initArchive (i : Ident) (loaded : List VObj) : Option AsmData :=
  Assembly.initList i (loaded.map some)

/-- `Assembly.__add__` (assembly.py lines 363-389).  The whole body is
guarded by `isinstance(getattr(obj, "actor", None), Prop3D)`; when the
guard fails the method silently returns `self` unchanged.  Otherwise the
object and its actor are appended to the parallel lists and the actor is
registered via `AddPart`; then, if the object carries a scalarbar:
`None → obj.scalarbar`; a `Group` accumulator is extended in place with
the (one-level-unwrapped) new scalarbar; otherwise a fresh `Group` of the
two unwrapped scalarbars is formed (`Group.__init__` flattens the nested
lists produced by `unpack_group`). -/
def Assembly.add (a : AsmData) (obj : VObj) : AsmData :=
  match VObj.actorAttr obj with
  | none => a
  | some act =>
    if act.isProp3D then
      let a' := { a with
        objects := a.objects ++ [obj]
        actors := a.actors ++ [act]
        parts := a.parts ++ [act] }
      match VObj.scalarbarAttr obj with
      | none => a'
      | some sb =>
        match a.scalarbar with
        | none => { a' with scalarbar := some sb }
        | some (SB.group xs) =>
            { a' with scalarbar := some (SB.group (xs ++ unpack_group sb)) }
        | some s =>
            { a' with scalarbar := some (SB.group (unpack_group s ++ unpack_group sb)) }
    else a

/-- The parallel-list invariant of claim C1: the `actors` list is exactly
the image of the `objects` list under `actor` lookup — this packages both
`len(objects) == len(actors)` and the index correspondence
`actors[i] is objects[i].actor`. -/
def pairInv (a : AsmData) : Prop :=
  a.actors.length = a.objects.length ∧ a.actors = a.objects.map VObj.actorOf

theorem pairInv_mkAsm (i : Ident) (objs : List VObj) : pairInv (mkAsm i objs) := by
  constructor
  · simp [mkAsm]
  · rfl

/-- Claim C1: for every valid `Assembly` construction — from an object
list, from a name-to-object mapping, or from an archive (modelled by the
loaded object list) — and after every `__add__`, `len(objects) ==
len(actors)` with `actors[i]` the actor of `objects[i]`; `__add__`
preserves the invariant. -/
theorem C1_parallel_lists :
    (∀ (i : Ident) (ms : List (Option VObj)) (a : AsmData),
        Assembly.initList i ms = some a → pairInv a)
    ∧ (∀ (i : Ident) (named : List (String × VObj)) (a : AsmData),
        Assembly.initDict i named = some a → pairInv a)
    ∧ (∀ (i : Ident) (loaded : List VObj) (a : AsmData),
        Assembly.initArchive i loaded = some a → pairInv a)
    ∧ (∀ (a : AsmData) (obj : VObj), pairInv a → pairInv (Assembly.add a obj)) := by
  have hinit : ∀ (i : Ident) (ms : List (Option VObj)) (a : AsmData),
      Assembly.initList i ms = some a → pairInv a := by
    intro i ms a h
    simp only [Assembly.initList] at h
    by_cases hall : (ms.reduceOption.all fun m => (VObj.actorAttr m).isSome) = true
    · rw [if_pos hall] at h
      exact Option.some.inj h ▸ pairInv_mkAsm _ _
    · rw [if_neg hall] at h
      exact absurd h (by simp)
  refine ⟨hinit, fun i named a h => hinit _ _ _ h, fun i loaded a h => hinit _ _ _ h, ?_⟩
  intro a obj h
  obtain ⟨hlen, hmap⟩ := h
  unfold Assembly.add
  cases hact : VObj.actorAttr obj with
  | none => exact ⟨hlen, hmap⟩
  | some act =>
    have hacteq : act = VObj.actorOf obj := by
      cases obj with
      | mesh m =>
        by_cases hm : m.hasActorAttr
        · simp only [VObj.actorAttr, hm, if_pos] at hact
          exact (Option.some.inj hact).symm ▸ rfl
        · simp [VObj.actorAttr, hm] at hact
      | asm c => simp [VObj.actorAttr] at hact; simp [hact]
    by_cases hp : act.isProp3D
    · simp only [hp, if_true]
      have hbase : pairInv { a with
          objects := a.objects ++ [obj],
          actors := a.actors ++ [act],
          parts := a.parts ++ [act] } := by
        refine ⟨by simp [hlen], ?_⟩
        simp [hmap, hacteq]
      cases hsb : VObj.scalarbarAttr obj with
      | none => exact hbase
      | some sb =>
        cases hself : a.scalarbar with
        | none => exact hbase
        | some s => cases s <;> exact hbase
    · simp only [hp, if_false]
      exact ⟨hlen, hmap⟩

/-- A concrete plain object used by witnesses: a small point cloud with a
`Prop3D` actor and no scalarbar. -/
def wMesh1 : MeshData :=
  { ident := Ident.orig 1, name := "a", npoints := 3,
    position := (0,0,0), pickFlag := true, wireframe := false,
    scalarbar := none, hasActorAttr := true,
    actor := { aid := Ident.orig 11, isProp3D := true, scalarbar := none } }

/-- A second concrete plain object used by witnesses. -/
def wMesh2 : MeshData :=
  { ident := Ident.orig 2, name := "b", npoints := 4,
    position := (0,0,0), pickFlag := true, wireframe := false,
    scalarbar := none, hasActorAttr := true,
    actor := { aid := Ident.orig 12, isProp3D := true, scalarbar := none } }

/-- Witness for C1 on concrete inputs: a one-object construction and a
subsequent `__add__`. -/
theorem C1_parallel_lists_witness :
    pairInv (mkAsm (Ident.orig 0) [VObj.mesh wMesh1])
    ∧ pairInv (Assembly.add (mkAsm (Ident.orig 0) [VObj.mesh wMesh1]) (VObj.mesh wMesh2)) := by
  have h0 : Assembly.initList (Ident.orig 0) [some (VObj.mesh wMesh1)]
      = some (mkAsm (Ident.orig 0) [VObj.mesh wMesh1]) := rfl
  constructor
  · exact C1_parallel_lists.1 (Ident.orig 0) [some (VObj.mesh wMesh1)] _ h0
  · exact C1_parallel_lists.2.2.2 _ (VObj.mesh wMesh2)
      (C1_parallel_lists.1 (Ident.orig 0) [some (VObj.mesh wMesh1)] _ h0)

/-- Claim C10: `__add__` with an object whose `actor` attribute is
missing, or is not a renderer `Prop3D`, returns the assembly completely
unchanged (objects, actors, parts and scalarbar included) and raises no
error (the model function is total). -/
theorem C10_add_non_prop3d_noop :
    ∀ (a : AsmData) (obj : VObj),
      (VObj.actorAttr obj = none ∨
        ∃ act, VObj.actorAttr obj = some act ∧ act.isProp3D = false) →
      Assembly.add a obj = a ∧
        (Assembly.add a obj).objects = a.objects ∧
        (Assembly.add a obj).actors = a.actors ∧
        (Assembly.add a obj).parts = a.parts ∧
        (Assembly.add a obj).scalarbar = a.scalarbar := by
  intro a obj h
  have heq : Assembly.add a obj = a := by
    unfold Assembly.add
    rcases h with h | ⟨act, hact, hp⟩
    · rw [h]
    · rw [hact]; simp [hp]
  exact ⟨heq, by rw [heq], by rw [heq], by rw [heq], by rw [heq]⟩

/-- A concrete object whose actor is not a `Prop3D` (a 2D prop, say). -/
def wFlatMesh : MeshData :=
  { ident := Ident.orig 5, name := "flat", npoints := 3,
    position := (0,0,0), pickFlag := true, wireframe := false,
    scalarbar := none, hasActorAttr := true,
    actor := { aid := Ident.orig 15, isProp3D := false, scalarbar := none } }

/-- The scalarbars collected by `Assembly.__init__` (lines 244-249): for
each actor, its `scalarbar` attribute when present and non-`None`, in
actor order.  This is exactly the `scalarbars` list of `mkAsm`. -/
def contribsOf (objs : List VObj) : List SB :=
  (objs.map VObj.actorOf).filterMap (fun a => a.scalarbar)

/-- The scalarbar trichotomy stated by the spec, with the members of the
`≥ 2` case being exactly the contribution list: `0` contributions →
`None`; `1` → that scalarbar; `≥ 2` → a `Group` whose parts are the
contributions in order. -/
def sbClaimInv (contribs : List SB) (s : Option SB) : Prop :=
  match contribs with
  | [] => s = none
  | [c] => s = some c
  | l => s = some (SB.group l)

/-- A concrete plain object carrying scalarbar `k` (the actor itself, a
bare vtkActor, carries no `scalarbar` attribute). -/
def sbMesh (k : Nat) : MeshData :=
  { ident := Ident.orig (30+k), name := "sb", npoints := 1, position := (0,0,0),
    pickFlag := true, wireframe := false, scalarbar := some (SB.plain k),
    hasActorAttr := true,
    actor := { aid := Ident.orig (40+k), isProp3D := true, scalarbar := none } }

/-- An assembly that aggregated two scalarbars through `__add__`: its
`scalarbar` is `Group([plain 1, plain 2])`. -/
def cexB1 : AsmData :=
  Assembly.add (Assembly.add (mkAsm (Ident.orig 20) []) (VObj.mesh (sbMesh 1)))
    (VObj.mesh (sbMesh 2))

/-- An assembly that aggregated a single scalarbar `plain 3` through
`__add__`. -/
def cexB2 : AsmData :=
  Assembly.add (mkAsm (Ident.orig 21) []) (VObj.mesh (sbMesh 3))

/-- An assembly constructed from the two assemblies above.  Both children
contribute a scalarbar (for an assembly child the actor is the child
itself), one of which is itself a `Group`. -/
def cexC2A : AsmData := mkAsm (Ident.orig 22) [VObj.asm cexB1, VObj.asm cexB2]

/-- Counterexample to claim C2 as stated: `cexC2A` has two contributing
children, and its scalarbar is a `Group` one of whose unpacked members is
itself a `Group` — `Assembly.__init__` does not flatten `Group`-typed
contributions, contradicting "flattened with no Group nested inside a
Group". -/
theorem C2_counterexample :
    cexC2A.scalarbar
        = some (SB.group [SB.group [SB.plain 1, SB.plain 2], SB.plain 3])
    ∧ ((unpack_group (SB.group [SB.group [SB.plain 1, SB.plain 2], SB.plain 3])).any
        SB.isGroup) = true :=
  ⟨rfl, rfl⟩

/-- Claim C2, amended: after construction the scalarbar is `None` for
zero contributions, the contributed scalarbar itself for one, and for two
or more a `Group` whose members are exactly the contributed scalarbars
*as-is* (a `Group`-typed contribution stays nested — only `__add__`
unwraps `Group`s via `unpack_group`).  When no contributed scalarbar is
itself a `Group`, the original invariant — members exactly the union of
contributions, flat, with no nested `Group` — is established by
construction and preserved by every `__add__`; an `__add__` whose object
contributes no scalarbar leaves the field unchanged. -/
theorem C2_scalarbar_invariant :
    (∀ (i : Ident) (objs : List VObj),
        sbClaimInv (contribsOf objs) (mkAsm i objs).scalarbar)
    ∧ (∀ (contribs : List SB) (a : AsmData) (obj : VObj) (c : SB),
        (∀ x ∈ contribs, x.isGroup = false) → c.isGroup = false →
        sbClaimInv contribs a.scalarbar →
        VObj.scalarbarAttr obj = some c →
        (∃ act, VObj.actorAttr obj = some act ∧ act.isProp3D = true) →
        sbClaimInv (contribs ++ [c]) ((Assembly.add a obj).scalarbar))
    ∧ (∀ (a : AsmData) (obj : VObj),
        VObj.scalarbarAttr obj = none →
        (Assembly.add a obj).scalarbar = a.scalarbar)
    ∧ (∀ (contribs : List SB) (s : Option SB),
        (∀ x ∈ contribs, x.isGroup = false) → 2 ≤ contribs.length →
        sbClaimInv contribs s →
        s = some (SB.group contribs)
          ∧ (contribs.all fun x => x.isGroup = false) = true) := by
  refine ⟨?_, ?_, ?_, ?_⟩
  · intro i objs
    show sbClaimInv (contribsOf objs) (mkAsm i objs).scalarbar
    have : (mkAsm i objs).scalarbar =
        match contribsOf objs with
        | [] => none
        | [sb] => some sb
        | l => some (SB.group l) := rfl
    rw [this]
    rcases contribsOf objs with _ | ⟨c, _ | ⟨c', l⟩⟩ <;> simp [sbClaimInv]
  · intro contribs a obj c hplain hc hinv hsb ⟨act, hact, hprop⟩
    have hadd : (Assembly.add a obj).scalarbar =
        match a.scalarbar with
        | none => some c
        | some (SB.group xs) => some (SB.group (xs ++ unpack_group c))
        | some s => some (SB.group (unpack_group s ++ unpack_group c)) := by
      unfold Assembly.add
      rw [hact]
      simp only [hprop, if_true, hsb]
      rcases a.scalarbar with _ | s
      · rfl
      · cases s <;> rfl
    have hcsplice : unpack_group c = [c] := by
      cases c with
      | plain n => rfl
      | group xs => simp [SB.isGroup] at hc
    rcases contribs with _ | ⟨c0, _ | ⟨c1, rest⟩⟩
    · have ha : a.scalarbar = none := hinv
      show sbClaimInv [c] (Assembly.add a obj).scalarbar
      rw [hadd, ha]
      rfl
    · have ha : a.scalarbar = some c0 := hinv
      have hc0 : c0.isGroup = false := hplain c0 (by simp)
      have hc0splice : unpack_group c0 = [c0] := by
        cases c0 with
        | plain n => rfl
        | group xs => simp [SB.isGroup] at hc0
      show sbClaimInv [c0, c] (Assembly.add a obj).scalarbar
      rw [hadd, ha]
      cases c0 with
      | plain n =>
        show some (SB.group (unpack_group (SB.plain n) ++ unpack_group c))
            = some (SB.group [SB.plain n, c])
        rw [hcsplice]
        rfl
      | group xs => simp [SB.isGroup] at hc0
    · have ha : a.scalarbar = some (SB.group (c0 :: c1 :: rest)) := hinv
      show sbClaimInv (c0 :: c1 :: (rest ++ [c])) (Assembly.add a obj).scalarbar
      rw [hadd, ha, hcsplice]
      show some (SB.group ((c0 :: c1 :: rest) ++ [c]))
          = some (SB.group (c0 :: c1 :: (rest ++ [c])))
      rfl
  · intro a obj hsb
    unfold Assembly.add
    rcases hact : VObj.actorAttr obj with _ | act
    · rfl
    · by_cases hprop : act.isProp3D
      · simp only [hprop, if_true, hsb]
      · simp only [hprop]
        rw [if_neg (by simp [hprop])]
  · intro contribs s hplain hlen hinv
    rcases contribs with _ | ⟨c0, _ | ⟨c1, rest⟩⟩
    · simp at hlen
    · simp at hlen
    · exact ⟨hinv, by simpa [List.all_eq_true] using hplain⟩

/-- Witness for the amended C2 on concrete inputs: a construction with
two plain contributions, and an `__add__` extending one plain
contribution to two. -/
theorem C2_scalarbar_invariant_witness :
    sbClaimInv (contribsOf [VObj.asm cexB2, VObj.asm cexB2])
      (mkAsm (Ident.orig 23) [VObj.asm cexB2, VObj.asm cexB2]).scalarbar
    ∧ sbClaimInv [SB.plain 1, SB.plain 2] cexB1.scalarbar := by
  constructor
  · exact C2_scalarbar_invariant.1 (Ident.orig 23) [VObj.asm cexB2, VObj.asm cexB2]
  · exact C2_scalarbar_invariant.2.1 [SB.plain 1]
      (Assembly.add (mkAsm (Ident.orig 20) []) (VObj.mesh (sbMesh 1)))
      (VObj.mesh (sbMesh 2)) (SB.plain 2)
      (by simp [SB.isGroup]) rfl rfl rfl ⟨(sbMesh 2).actor, rfl, rfl⟩

/-- Modelled from the spec: `Points.clone()` (defined in vedo's point
cloud module, not under `src/`) produces a copy of the object with a
fresh Python identity — the spec's "translated copies of the nested
assembly's children (distinct identity from the originals)".  All
modelled attributes are copied; the copy's actor is likewise a fresh
object. -/
def cloneMesh (m : MeshData) : MeshData :=
  { m with ident := Ident.cloned m.ident,
           actor := { m.actor with aid := Ident.cloned m.actor.aid } }

mutual
/-- `clone()` of a vedo object.  For an `Assembly` this is
`Assembly.clone` (assembly.py lines 475-480): every direct child is
cloned and a new `Assembly` is constructed from the clones (so name,
position and pickability are those of a fresh construction, and the
scalarbar is re-aggregated from the clones).  For a plain object it is
the spec-modelled `cloneMesh`. -/
def cloneObj : VObj → VObj
  | .mesh m => .mesh (cloneMesh m)
  | .asm a => .asm (mkAsm (Ident.cloned a.ident) (cloneList a.objects))
/-- `[a.clone() for a in objects]` — the `newlist` loop of
`Assembly.clone`. -/
def cloneList : List VObj → List VObj
  | [] => []
  | x :: r => cloneObj x :: cloneList r
end

/-- Modelled from the spec: `shift(apos)` (vedo's transform helpers, not
under `src/`) translates an object by the given offset — the spec's
"cloned and translated by that offset".  Position is the only modelled
attribute affected; identity is preserved (`shift` mutates in place and
returns the same object). -/
def VObj.shift (d : P3) : VObj → VObj
  | .mesh m => .mesh { m with position := p3add m.position d }
  | .asm a => .asm { a with position := p3add a.position d }

mutual
/-- All object identities occurring in a tree of objects: the object
itself and, for an assembly, every descendant. -/
def identsOf : VObj → List Ident
  | .mesh m => [m.ident]
  | .asm a => a.ident :: identsOfList a.objects
/-- `identsOf` over a list of objects. -/
def identsOfList : List VObj → List Ident
  | [] => []
  | x :: r => identsOf x ++ identsOfList r
end

/-- The per-element yield of the generator `_genflatten` inside
`Assembly.recursive_unpack` (assembly.py lines 453-463): an `Assembly`
element whose position coordinates sum to a nonzero value (`asum =
np.sum(apos); if asum:`) yields `x.clone().shift(apos)` for each of its
children `x`; with a zero sum it yields the children themselves; a
non-`Assembly` element is yielded as-is. -/
def genYield : VObj → List VObj
  | .asm e =>
      e.objects.map (fun x =>
        if psum e.position ≠ 0 then VObj.shift e.position (cloneObj x) else x)
  | m => [m]

/-- `_genflatten(lst)` (lines 446-463): an empty list yields nothing;
when the first element is an `Assembly`, the whole list is replaced by
that assembly's children (`lst = lst[0].unpack()`) before the loop; then
every element is yielded through `genYield`. -/
def genflatten (lst : List VObj) : List VObj :=
  match lst with
  | [] => []
  | VObj.asm a :: _ => (a.objects.map genYield).flatten
  | _ => (lst.map genYield).flatten

/-- `Assembly.recursive_unpack` (lines 443-465):
`list(_genflatten([self]))`. -/
def Assembly.recursive_unpack (a : AsmData) : List VObj :=
  genflatten [VObj.asm a]

/-- Transcription of claim C4's description of one child's contribution
to the flattening: an `Assembly` child with nonzero position-coordinate
sum contributes translated clones of its children; one with zero sum
contributes the same children unmodified; a non-`Assembly` child
contributes itself. -/
def claimChildYield : VObj → List VObj
  | .asm e =>
      if psum e.position ≠ 0
      then e.objects.map (fun x => VObj.shift e.position (cloneObj x))
      else e.objects
  | m => [m]

theorem genYield_eq_claimChildYield (x : VObj) : genYield x = claimChildYield x := by
  cases x with
  | mesh m => rfl
  | asm e =>
    by_cases h : psum e.position ≠ 0
    · simp [genYield, claimChildYield, h]
    · simp [genYield, claimChildYield, h]

theorem identOf_cloneObj (x : VObj) :
    VObj.identOf (cloneObj x) = Ident.cloned (VObj.identOf x) := by
  cases x <;> rfl

theorem identOf_shift (d : P3) (x : VObj) :
    VObj.identOf (VObj.shift d x) = VObj.identOf x := by
  cases x <;> rfl

theorem mem_identsOfList_isOrig {l : List VObj} {i : Ident}
    (hall : (identsOfList l).all Ident.isOrig = true) (hmem : i ∈ identsOfList l) :
    i.isOrig = true :=
  List.all_eq_true.mp hall i hmem

/-- Claim C4: the flattening yields, for each direct `Assembly` child,
translated clones of that child's children — of identity distinct from
every object in the assembly, provided all original identities are
`orig` — exactly when the child's position coordinates sum to a nonzero
value; the same-identity children unmodified when the sum is zero; and
each non-`Assembly` child as-is. -/
theorem C4_recursive_unpack (a : AsmData)
    (hids : (identsOfList a.objects).all Ident.isOrig = true) :
    Assembly.recursive_unpack a = (a.objects.map claimChildYield).flatten
    ∧ (∀ e : AsmCore VObj, VObj.asm e ∈ a.objects →
        (psum e.position = 0 → claimChildYield (VObj.asm e) = e.objects)
        ∧ (psum e.position ≠ 0 →
            claimChildYield (VObj.asm e)
              = e.objects.map (fun x => VObj.shift e.position (cloneObj x))
            ∧ ∀ x ∈ e.objects,
                VObj.identOf (VObj.shift e.position (cloneObj x)) ∉ identsOfList a.objects))
    ∧ (∀ m ∈ a.objects, VObj.isAsm m = false → claimChildYield m = [m]) := by
  refine ⟨?_, ?_, ?_⟩
  · show genflatten [VObj.asm a] = (a.objects.map claimChildYield).flatten
    unfold genflatten
    simp only [List.map_congr_left (fun x _ => genYield_eq_claimChildYield x)]
  · intro e _
    constructor
    · intro h0
      simp [claimChildYield, h0]
    · intro hne
      refine ⟨by simp [claimChildYield, hne], ?_⟩
      intro x _ hmemids
      have : (VObj.identOf (VObj.shift e.position (cloneObj x))).isOrig = true :=
        mem_identsOfList_isOrig hids hmemids
      rw [identOf_shift, identOf_cloneObj] at this
      simp [Ident.isOrig] at this
  · intro m _ hm
    cases m with
    | mesh m => rfl
    | asm e => simp [VObj.isAsm] at hm

/-- A nested assembly at offset `(3,-1,0)` (nonzero coordinate sum)
holding one object. -/
def wInner : AsmData :=
  { mkAsm (Ident.orig 51) [VObj.mesh wMesh2] with position := (3, -1, 0) }

/-- A concrete two-level assembly for the C4 witness: one plain child,
one zero-offset nested assembly, one nested assembly at a nonzero
offset. -/
def wA4 : AsmData :=
  mkAsm (Ident.orig 52)
    [VObj.mesh wMesh1, VObj.asm (mkAsm (Ident.orig 50) [VObj.mesh wFlatMesh]),
     VObj.asm wInner]

/-- Witness for C4 at a concrete input (all identities `orig`). -/
theorem C4_recursive_unpack_witness :
    Assembly.recursive_unpack wA4 = (wA4.objects.map claimChildYield).flatten :=
  (C4_recursive_unpack wA4 (by decide)).1

/-- `needle` occurs as a contiguous run inside a character list. -/
def listIsInfix (needle : List Char) : List Char → Bool
  | [] => needle.isEmpty
  | c :: rest => needle.isPrefixOf (c :: rest) || listIsInfix needle rest

/-- Python substring containment `needle in hay` for strings. -/
def strContains (hay needle : String) : Bool :=
  listIsInfix needle.toList hay.toList

/-- The `pos` argument of `clone2d`: either a keyword string or an
explicit 2-vector. -/
inductive Pos2d where
  | str (s : String)
  | vec (x y : ℚ)

/-- The resolved `position` local of `clone2d`: normally a 2-vector, but
the final `else: position = pos` branch passes a non-keyword *string*
through verbatim. -/
inductive PosVal where
  | vec (x y : ℚ)
  | raw (s : String)
deriving Repr

/-- `padding = 0.05` (assembly.py line 508). -/
def padding : ℚ := 1 / 20

/-- The symbolic-position resolution of `clone2d` (assembly.py lines
517-552), mapping the `pos` argument and the recentred bounds
`x0,x1,y0,y1` to the `(offset, position)` pair, or to the
`ValueError("incomplete position ...")` raise.  The "cent" branch runs
its four edge checks sequentially, each overwriting one offset
coordinate and the whole position vector, exactly as in the source;
`"top"`/`"bottom"` without `"left"`/`"right"` raise; a 2-vector (and the
fallthrough string) keep `offset = [x0, y0]`. -/
def resolvePlacement (pos : Pos2d) (x0 x1 y0 y1 : ℚ) :
    Except String ((ℚ × ℚ) × PosVal) :=
  match pos with
  | .vec px py => .ok ((x0, y0), .vec px py)
  | .str s =>
    if strContains s "cent" then
      let offset : ℚ × ℚ := ((x0 + x1) / 2, (y0 + y1) / 2)
      let position : ℚ × ℚ := (0, 0)
      let offset := if strContains s "right" then (x1, offset.2) else offset
      let position := if strContains s "right" then ((1 - padding, 0) : ℚ × ℚ) else position
      let offset := if strContains s "left" then (x0, offset.2) else offset
      let position := if strContains s "left" then ((-1 + padding, 0) : ℚ × ℚ) else position
      let offset := if strContains s "top" then (offset.1, y1) else offset
      let position := if strContains s "top" then ((0, 1 - padding) : ℚ × ℚ) else position
      let offset := if strContains s "bottom" then (offset.1, y0) else offset
      let position := if strContains s "bottom" then ((0, -1 + padding) : ℚ × ℚ) else position
      .ok (offset, .vec position.1 position.2)
    else if strContains s "top" then
      if strContains s "right" then .ok ((x1, y1), .vec (1 - padding) (1 - padding))
      else if strContains s "left" then .ok ((x0, y1), .vec (-1 + padding) (1 - padding))
      else .error ("incomplete position pos=" ++ s)
    else if strContains s "bottom" then
      if strContains s "right" then .ok ((x1, y0), .vec (1 - padding) (-1 + padding))
      else if strContains s "left" then .ok ((x0, y0), .vec (-1 + padding) (-1 + padding))
      else .error ("incomplete position pos=" ++ s)
    else .ok ((x0, y0), .raw s)

/-- The accumulation loop of `clone2d` (assembly.py lines 554-577) over
the flattened elements.  Each element that survives the three `continue`
guards contributes exactly one 2D copy (a wireframe element is first
replaced by its `boundaries()` edge object, a non-wireframe element is
projected directly — either way exactly one copy is appended); the model
records the identity of the source element of each copy.  `scanned` is
the dedup list of the source: it is consulted by the first guard but —
as in the source, where no element is ever appended to it — never
extended. -/
def clone2dGo (scanned : List Ident) : List VObj → List Ident
  | [] => []
  | a :: rest =>
    if VObj.identOf a ∈ scanned then clone2dGo scanned rest
    else if ¬ VObj.isPoints a then clone2dGo scanned rest
    else if VObj.npointsOf a = 0 then clone2dGo scanned rest
    else VObj.identOf a :: clone2dGo scanned rest

/-- The modelled result of `clone2d`: the identities of the source
elements that produced a 2D copy (the resulting `Group`'s members, in
order), the resolved offset and position, the per-element uniform scale
`s`, and the group name. -/
structure Clone2dOut where
  members : List Ident
  offset : ℚ × ℚ
  position : PosVal
  scale : ℚ
  name : String

/-- `Assembly.clone2d` (assembly.py lines 482-592).  The renderer-queried
`xbounds()`/`ybounds()` are passed in as `xb`/`yb`; `self.pos()` is the
assembly's position.  The bounds are recentred by subtracting the
position (lines 511-515), the placement is resolved (raising on an
incomplete keyword), and the loop collects one 2D copy per surviving
flattened element.  The per-element scale `s = size * 500 / (x1 - x0)`
(line 564) is the same for every element and is exposed as `scale`.
`rotation` and `ontop` only affect delegated geometry/ordering and the
histogram-attribute copying (lines 579-589) touches no modelled state;
neither is modelled. -/
def Assembly.clone2d (a : AsmData) (xb yb : ℚ × ℚ) (pos : Pos2d) (size : ℚ) :
    Except String Clone2dOut :=
  let pp := a.position
  let x0 := xb.1 - (pp.1 : ℚ)
  let x1 := xb.2 - (pp.1 : ℚ)
  let y0 := yb.1 - (pp.2.1 : ℚ)
  let y1 := yb.2 - (pp.2.1 : ℚ)
  match resolvePlacement pos x0 x1 y0 y1 with
  | .error e => .error e
  | .ok op =>
    .ok { members := clone2dGo [] (Assembly.recursive_unpack a)
          offset := op.1
          position := op.2
          scale := size * 500 / (x1 - x0)
          name := a.name }

/-- First-occurrence deduplication of an identity list — the behaviour
claim C3 ascribes to the `scanned` check. -/
def dedupIdents (seen : List Ident) : List Ident → List Ident
  | [] => []
  | i :: r => if i ∈ seen then dedupIdents seen r else i :: dedupIdents (i :: seen) r

/-- With an empty (never-growing) `scanned` list the loop keeps every
point-bearing element with `npoints > 0`, with multiplicity. -/
theorem clone2dGo_empty (l : List VObj) :
    clone2dGo [] l
      = (l.filter (fun x => VObj.isPoints x && (VObj.npointsOf x != 0))).map
          VObj.identOf := by
  induction l with
  | nil => rfl
  | cons a r ih =>
    rw [clone2dGo, if_neg (by simp)]
    by_cases hp : VObj.isPoints a
    · by_cases hn : VObj.npointsOf a = 0
      · rw [if_neg (by simp [hp]), if_pos hn]
        simp [List.filter_cons, hp, hn, ih]
      · rw [if_neg (by simp [hp]), if_neg hn]
        simp [List.filter_cons, hp, hn, ih]
    · rw [if_pos (by simpa using hp)]
      simp [List.filter_cons, hp, ih]

/-- A concrete assembly holding the *same* object twice (`Assembly([m,
m])` in Python: the same reference appears at both indices). -/
def cexC3A : AsmData := mkAsm (Ident.orig 60) [VObj.mesh wMesh1, VObj.mesh wMesh1]

/-- Counterexample to claim C3 as stated: on an assembly whose flattened
sequence contains the same element (same identity) twice, `clone2d`
produces *two* 2D copies of it — the element is not skipped on its
second occurrence, because the `scanned` list is never populated — while
identity-deduplication would predict one copy. -/
theorem C3_counterexample :
    (Assembly.clone2d cexC3A (0, 1) (0, 1) (Pos2d.vec 0 0) 1).toOption.map
        Clone2dOut.members = some [Ident.orig 1, Ident.orig 1]
    ∧ dedupIdents []
        (((Assembly.recursive_unpack cexC3A).filter
            (fun x => VObj.isPoints x && (VObj.npointsOf x != 0))).map VObj.identOf)
        = [Ident.orig 1]
    ∧ [Ident.orig 1, Ident.orig 1] ≠ [Ident.orig 1] :=
  ⟨rfl, rfl, by decide⟩

/-- Claim C3, amended: the `Group` returned by `clone2d` contains exactly
one 2D copy per flattened element that is a point-bearing renderable with
`npoints > 0`, counted *with multiplicity* — no deduplication occurs: the
`scanned` list consulted by the loop is never populated, so an element
already processed earlier in the flattened sequence still contributes
another copy. -/
theorem C3_clone2d_members :
    ∀ (a : AsmData) (xb yb : ℚ × ℚ) (pos : Pos2d) (size : ℚ) (out : Clone2dOut),
      Assembly.clone2d a xb yb pos size = Except.ok out →
      out.members
        = ((Assembly.recursive_unpack a).filter
            (fun x => VObj.isPoints x && (VObj.npointsOf x != 0))).map VObj.identOf := by
  intro a xb yb pos size out h
  simp only [Assembly.clone2d] at h
  rcases hres : resolvePlacement pos (xb.1 - ((a.position.1 : ℤ) : ℚ))
      (xb.2 - ((a.position.1 : ℤ) : ℚ)) (yb.1 - ((a.position.2.1 : ℤ) : ℚ))
      (yb.2 - ((a.position.2.1 : ℤ) : ℚ)) with e | op
  · rw [hres] at h
    exact absurd h (by simp)
  · rw [hres] at h
    have hout := (Except.ok.inj h).symm
    rw [hout]
    exact clone2dGo_empty _

/-- The `clone2d` output at a concrete input, extracted for the C3
witness. -/
def wC3out : Clone2dOut :=
  ((Assembly.clone2d cexC3A (0, 1) (0, 1) (Pos2d.vec 0 0) 1).toOption).get (by rfl)

/-- Witness for the amended C3 at a concrete input. -/
theorem C3_clone2d_members_witness :
    wC3out.members
      = ((Assembly.recursive_unpack cexC3A).filter
          (fun x => VObj.isPoints x && (VObj.npointsOf x != 0))).map VObj.identOf :=
  C3_clone2d_members cexC3A (0, 1) (0, 1) (Pos2d.vec 0 0) 1 wC3out rfl

/-- Claim C6: a symbolic position containing `"top"` or `"bottom"` but
neither a `"left"`/`"right"` qualifier nor a `"cent"` token makes
`clone2d` raise (`ValueError`, modelled by `Except.error`) and abort the
call — no group is produced. -/
theorem C6_incomplete_pos_raises :
    ∀ (a : AsmData) (xb yb : ℚ × ℚ) (size : ℚ) (s : String),
      (strContains s "top" = true ∨ strContains s "bottom" = true) →
      strContains s "left" = false →
      strContains s "right" = false →
      strContains s "cent" = false →
      Assembly.clone2d a xb yb (Pos2d.str s) size
        = Except.error ("incomplete position pos=" ++ s) := by
  intro a xb yb size s htb hl hr hc
  have hres : ∀ x0 x1 y0 y1 : ℚ,
      resolvePlacement (Pos2d.str s) x0 x1 y0 y1
        = Except.error ("incomplete position pos=" ++ s) := by
    intro x0 x1 y0 y1
    rcases htb with ht | hb
    · simp [resolvePlacement, hc, ht, hl, hr]
    · by_cases ht : strContains s "top"
      · simp [resolvePlacement, hc, ht, hl, hr]
      · simp [resolvePlacement, hc, ht, hb, hl, hr]
  simp only [Assembly.clone2d]
  rw [hres]

/-- Witness for C6: `clone2d(pos="top")` raises. -/
theorem C6_incomplete_pos_raises_witness :
    Assembly.clone2d wA4 (0, 10) (0, 5) (Pos2d.str "top") 1
      = Except.error ("incomplete position pos=" ++ "top") :=
  C6_incomplete_pos_raises wA4 (0, 10) (0, 5) 1 "top" (Or.inl (by decide))
    (by decide) (by decide) (by decide)

/-- The `clone2d` output at the C5 scenario input, extracted for the C5
proof and witness. -/
def wC5out : Clone2dOut :=
  ((Assembly.clone2d wA4 (0, 10) (0, 5) (Pos2d.vec (1/2) (1/2)) 2).toOption).get (by rfl)

/-- Claim C5: for an explicit 2-vector position, the scale is
`s = size * 500 / xExtent` with `xExtent` the assembly's bounding-box
width (the recentring by the assembly position cancels), the position is
the given vector verbatim, and the offset is the (recentred) lower-left
bound; in the concrete scenario `clone2d(pos=[1/2, 1/2], size=2)` with
x-bounds `(0, 10)` the scale is `100`, the offset is the lower-left
bound `(0, 0)` and the position is `[1/2, 1/2]` exactly. -/
theorem C5_clone2d_scale_and_vec_pos :
    (∀ (a : AsmData) (xb yb : ℚ × ℚ) (size px py : ℚ) (out : Clone2dOut),
      Assembly.clone2d a xb yb (Pos2d.vec px py) size = Except.ok out →
      out.scale = size * 500 / (xb.2 - xb.1)
        ∧ out.position = PosVal.vec px py
        ∧ out.offset = (xb.1 - ((a.position.1 : ℤ) : ℚ), yb.1 - ((a.position.2.1 : ℤ) : ℚ)))
    ∧ (∃ out : Clone2dOut,
        Assembly.clone2d wA4 (0, 10) (0, 5) (Pos2d.vec (1/2) (1/2)) 2 = Except.ok out
          ∧ out.scale = 100
          ∧ out.position = PosVal.vec (1/2) (1/2)
          ∧ out.offset = (0, 0)) := by
  have hgen : ∀ (a : AsmData) (xb yb : ℚ × ℚ) (size px py : ℚ) (out : Clone2dOut),
      Assembly.clone2d a xb yb (Pos2d.vec px py) size = Except.ok out →
      out.scale = size * 500 / (xb.2 - xb.1)
        ∧ out.position = PosVal.vec px py
        ∧ out.offset = (xb.1 - ((a.position.1 : ℤ) : ℚ), yb.1 - ((a.position.2.1 : ℤ) : ℚ)) := by
    intro a xb yb size px py out h
    have hout := (Except.ok.inj h).symm
    refine ⟨?_, ?_, ?_⟩
    · rw [hout]
      show size * 500 / ((xb.2 - ((a.position.1 : ℤ) : ℚ)) - (xb.1 - ((a.position.1 : ℤ) : ℚ)))
          = size * 500 / (xb.2 - xb.1)
      ring_nf
    · rw [hout]
    · rw [hout]
  refine ⟨hgen, ?_⟩
  obtain ⟨h1, h2, h3⟩ :=
    hgen wA4 (0, 10) (0, 5) 2 (1/2) (1/2) wC5out rfl
  refine ⟨wC5out, rfl, ?_, h2, ?_⟩
  · rw [h1]; norm_num
  · rw [h3]
    norm_num [wA4, mkAsm]

/-- Witness for C5: the general statement applied at the scenario
input. -/
theorem C5_clone2d_scale_and_vec_pos_witness :
    wC5out.scale = 2 * 500 / (10 - 0)
      ∧ wC5out.position = PosVal.vec (1/2) (1/2)
      ∧ wC5out.offset = (0 - ((wA4.position.1 : ℤ) : ℚ), 0 - ((wA4.position.2.1 : ℤ) : ℚ)) :=
  C5_clone2d_scale_and_vec_pos.1 wA4 (0, 10) (0, 5) 2 (1/2) (1/2) wC5out rfl

/-- The state of a `Group` relevant to pickability: the container's own
flag and its member props.  `Group.__init__` registers each object's
actor via `AddPart` and switches the container's own pickability off
(`PickableOff()`, line 105). -/
structure GroupData where
  pickFlag : Bool
  parts : List VObj

/-- `Group.pickable(value)` (assembly.py lines 178-181):
`self.SetPickable(value)` on the container only — the members are not
touched. -/
def Group.pickableG (v : Bool) (g : GroupData) : GroupData :=
  { g with pickFlag := v }

mutual
/-- `pickable(value)` as dispatched on a vedo object — the call made on
`self` and on each element yielded by `recursive_unpack` inside
`Assembly.pickable` (assembly.py lines 467-473).  On a plain object it
sets the actor's flag.  On an `Assembly` it is `Assembly.pickable`:
`self.SetPickable(value)` followed by `elem.pickable(value)` for every
yielded element.  In this by-value state model the net effect of that
loop on the stored tree is `pickChildren`: the yields of a zero-offset
child assembly alias that child's stored children, so their mutation is
visible, while the yields of a nonzero-offset child assembly are fresh
clones whose mutation is discarded with them. -/
def pickObj (v : Bool) : VObj → VObj
  | .mesh m => .mesh { m with pickFlag := v }
  | .asm a => .asm { a with pickFlag := v, objects := pickChildren v a.objects }
/-- The net effect of the `Assembly.pickable` flattening loop on the
direct children of the assembly. -/
def pickChildren (v : Bool) : List VObj → List VObj
  | [] => []
  | c :: rest => pickChild1 v c :: pickChildren v rest
/-- The net effect of the `Assembly.pickable` flattening loop on one
direct child: a plain child is yielded as-is (shared) and its flag is
set; a child assembly with nonzero position sum is flattened into
discarded clones, leaving it unchanged; a child assembly with zero
position sum has each of its (shared) children receive
`pickable(value)` — its own flag, never yielded, is untouched. -/
def pickChild1 (v : Bool) : VObj → VObj
  | .mesh m => .mesh { m with pickFlag := v }
  | .asm e =>
      if psum e.position = 0
      then .asm { e with objects := pickElems v e.objects }
      else .asm e
/-- `elem.pickable(value)` over the shared children of a zero-offset
child assembly. -/
def pickElems (v : Bool) : List VObj → List VObj
  | [] => []
  | x :: rest => pickObj v x :: pickElems v rest
end

/-- `Assembly.pickable(value)` (assembly.py lines 467-473) as a state
transformation of the assembly. -/
def Assembly.pickableA (v : Bool) (a : AsmData) : AsmData :=
  { a with pickFlag := v, objects := pickChildren v a.objects }

/-- An object whose actor pickability flag is off. -/
def cexC7M : MeshData := { wMesh1 with pickFlag := false }

/-- A nested assembly at offset `(2,0,0)` holding the unpickable
object. -/
def cexC7B : AsmData :=
  { mkAsm (Ident.orig 71) [VObj.mesh cexC7M] with position := (2, 0, 0) }

/-- An assembly whose only child is the nonzero-offset nested
assembly. -/
def cexC7A : AsmData := mkAsm (Ident.orig 70) [VObj.asm cexC7B]

/-- Counterexample to claim C7 as stated: after
`cexC7A.pickable(True)` the assembly's own flag is set, but the
flattening of the resulting assembly still contains an element whose
flag is `False` — the cascade reached only the discarded clones of the
nonzero-offset nested assembly's children, so it is not a full
cascade over the recursive flattening. -/
theorem C7_counterexample :
    (Assembly.pickableA true cexC7A).pickFlag = true
    ∧ (Assembly.recursive_unpack (Assembly.pickableA true cexC7A)).map VObj.pickOf
        = [false]
    ∧ ¬ (∀ x ∈ Assembly.recursive_unpack (Assembly.pickableA true cexC7A),
          VObj.pickOf x = true) :=
  ⟨rfl, rfl, by decide⟩

theorem pickChildren_eq_map (v : Bool) (l : List VObj) :
    pickChildren v l = l.map (pickChild1 v) := by
  induction l with
  | nil => rfl
  | cons c rest ih => rw [pickChildren, ih, List.map_cons]

theorem pickElems_eq_map (v : Bool) (l : List VObj) :
    pickElems v l = l.map (pickObj v) := by
  induction l with
  | nil => rfl
  | cons x rest ih => rw [pickElems, ih, List.map_cons]

/-- Claim C7, amended: `Group.pickable(value)` sets the flag on the
container only, leaving every member unchanged.  `Assembly.pickable`
sets the flag on the assembly itself and applies `pickable` to every
element yielded by the flattening; observably this sets the flag on each
direct plain child, recurses fully (as `Assembly.pickable`) into each
child of a *zero*-offset nested assembly, and leaves a nested assembly
with nonzero position-coordinate sum entirely unchanged — the flag lands
only on the discarded clones of its children, so the cascade is not full
over the recursive flattening. -/
theorem C7_pickable_cascade :
    (∀ (v : Bool) (g : GroupData),
        (Group.pickableG v g).pickFlag = v ∧ (Group.pickableG v g).parts = g.parts)
    ∧ (∀ (v : Bool) (a : AsmData),
        (Assembly.pickableA v a).pickFlag = v
          ∧ (Assembly.pickableA v a).objects = a.objects.map (pickChild1 v))
    ∧ (∀ (v : Bool) (m : MeshData),
        pickChild1 v (VObj.mesh m) = VObj.mesh { m with pickFlag := v })
    ∧ (∀ (v : Bool) (e : AsmCore VObj), psum e.position ≠ 0 →
        pickChild1 v (VObj.asm e) = VObj.asm e)
    ∧ (∀ (v : Bool) (e : AsmCore VObj), psum e.position = 0 →
        pickChild1 v (VObj.asm e)
          = VObj.asm { e with objects := e.objects.map (pickObj v) })
    ∧ (∀ (v : Bool) (c : AsmCore VObj),
        pickObj v (VObj.asm c) = VObj.asm (Assembly.pickableA v c)) := by
  refine ⟨?_, ?_, ?_, ?_, ?_, ?_⟩
  · intro v g
    exact ⟨rfl, rfl⟩
  · intro v a
    exact ⟨rfl, by simp [Assembly.pickableA, pickChildren_eq_map]⟩
  · intro v m
    rfl
  · intro v e h
    rw [pickChild1, if_neg h]
  · intro v e h
    rw [pickChild1, if_pos h, pickElems_eq_map]
  · intro v c
    rw [pickObj, Assembly.pickableA]

/-- Witness for the amended C7 at concrete inputs: the nonzero-offset
nested assembly is untouched, and the no-offset variant recurses. -/
theorem C7_pickable_cascade_witness :
    pickChild1 true (VObj.asm cexC7B) = VObj.asm cexC7B
    ∧ pickChild1 true (VObj.asm (mkAsm (Ident.orig 72) [VObj.mesh cexC7M]))
        = VObj.asm { mkAsm (Ident.orig 72) [VObj.mesh cexC7M] with
            objects := [VObj.mesh cexC7M].map (pickObj true) } :=
  ⟨C7_pickable_cascade.2.2.2.1 true cexC7B (by decide),
   C7_pickable_cascade.2.2.2.2.1 true (mkAsm (Ident.orig 72) [VObj.mesh cexC7M])
     (by decide)⟩

/-- The string-key scan of `Assembly.__getitem__` (assembly.py lines
399-403): return the first object whose `name` equals the key exactly,
else fall through to `None`. -/
def getitemLoop (s : String) : List VObj → Option VObj
  | [] => none
  | m :: rest => if s = VObj.nameOf m then some m else getitemLoop s rest

/-- `Assembly.__getitem__` with a string key. -/
def Assembly.getitemStr (a : AsmData) (s : String) : Option VObj :=
  getitemLoop s a.objects

/-- The result of `Assembly.unpack(string)`: the found object, or the
empty list `[]`. -/
inductive UnpackRes where
  | obj (o : VObj)
  | empty
deriving Repr

/-- The string-key scan of `Assembly.unpack` (assembly.py lines
437-441): the first object whose `name` equals the key exactly, else the
empty list. -/
def unpackLoop (s : String) : List VObj → UnpackRes
  | [] => .empty
  | m :: rest => if s = VObj.nameOf m then .obj m else unpackLoop s rest

/-- `Assembly.unpack` with a string argument. -/
def Assembly.unpackStr (a : AsmData) (s : String) : UnpackRes :=
  unpackLoop s a.objects

/-- Claim C8: by-name lookup through `__getitem__` and `unpack` returns
the first object in insertion order whose name equals the key exactly
(the library first-match `List.find?`); when no name matches,
`__getitem__` returns `None` and `unpack` returns the empty list —
neither raises (both model functions are total). -/
theorem C8_by_name_lookup :
    (∀ (a : AsmData) (s : String),
        Assembly.getitemStr a s = a.objects.find? (fun m => s == VObj.nameOf m))
    ∧ (∀ (a : AsmData) (s : String),
        Assembly.unpackStr a s
          = match a.objects.find? (fun m => s == VObj.nameOf m) with
            | some m => UnpackRes.obj m
            | none => UnpackRes.empty)
    ∧ (∀ (a : AsmData) (s : String),
        (∀ m ∈ a.objects, VObj.nameOf m ≠ s) →
        Assembly.getitemStr a s = none ∧ Assembly.unpackStr a s = UnpackRes.empty) := by
  have hfind : ∀ (s : String) (l : List VObj),
      getitemLoop s l = l.find? (fun m => s == VObj.nameOf m) := by
    intro s l
    induction l with
    | nil => rfl
    | cons m rest ih =>
      by_cases h : s = VObj.nameOf m
      · rw [getitemLoop, if_pos h, List.find?_cons_of_pos _ (by simpa using h)]
      · rw [getitemLoop, if_neg h, List.find?_cons_of_neg _ (by simpa using h), ih]
  have hunp : ∀ (s : String) (l : List VObj),
      unpackLoop s l
        = match l.find? (fun m => s == VObj.nameOf m) with
          | some m => UnpackRes.obj m
          | none => UnpackRes.empty := by
    intro s l
    induction l with
    | nil => rfl
    | cons m rest ih =>
      by_cases h : s = VObj.nameOf m
      · rw [unpackLoop, if_pos h, List.find?_cons_of_pos _ (by simpa using h)]
      · rw [unpackLoop, if_neg h, List.find?_cons_of_neg _ (by simpa using h)]
        exact ih
  refine ⟨fun a s => hfind s a.objects, fun a s => hunp s a.objects, ?_⟩
  intro a s hnone
  have hf : a.objects.find? (fun m => s == VObj.nameOf m) = none := by
    rw [List.find?_eq_none]
    intro m hm
    simp only [beq_iff_eq]
    exact fun heq => hnone m hm heq.symm
  constructor
  · rw [show Assembly.getitemStr a s = getitemLoop s a.objects from rfl, hfind, hf]
  · rw [show Assembly.unpackStr a s = unpackLoop s a.objects from rfl, hunp, hf]

/-- Witness for C8 at a concrete input: a miss returns `None` / the
empty list. -/
theorem C8_by_name_lookup_witness :
    Assembly.getitemStr wA4 "zzz" = none
      ∧ Assembly.unpackStr wA4 "zzz" = UnpackRes.empty :=
  C8_by_name_lookup.2.2 wA4 "zzz" (by decide)

/-- Modelled from the spec: the output meshes of the external Procrustes
filter (lines 60-68) — fresh `Mesh` objects, each carrying the
corresponding source's name and display properties.  The aligned
geometry lives in the external filter; only freshness of identity and
the copied attributes are modelled. -/
def alignedMesh (s : MeshData) : MeshData := cloneMesh s

/-- `procrustes_alignment` (assembly.py lines 25-72).  The input loop
(lines 48-51) raises `RuntimeError` as soon as some source's `npoints`
differs from the first source's — before any output `Assembly` is
constructed, so an error leaves no partial result.  Otherwise the
external filter runs and an `Assembly` of the per-source output meshes
is returned (`rigid` only toggles the external filter's mode; with no
sources the loop checks nothing and an empty assembly results).  The
fresh identity of the result assembly is `i`. -/
def procrustes_alignment (i : Ident) (rigid : Bool) (sources : List MeshData) :
    Except String AsmData :=
  match sources with
  | [] => Except.ok (mkAsm i [])
  | s0 :: rest =>
    if (s0 :: rest).any (fun s => s0.npoints ≠ s.npoints)
    then Except.error "sources have different nr of points"
    else Except.ok (mkAsm i ((s0 :: rest).map (fun s => VObj.mesh (alignedMesh s))))

/-- Claim C9: `procrustes_alignment` on sources with differing point
counts reports the error and aborts by raising (`Except.error`),
producing no partial result `Assembly` (the error value carries no
assembly, and the raise precedes any assembly construction). -/
theorem C9_procrustes_mismatch_raises :
    ∀ (i : Ident) (rigid : Bool) (s0 : MeshData) (rest : List MeshData),
      (∃ s ∈ s0 :: rest, s.npoints ≠ s0.npoints) →
      procrustes_alignment i rigid (s0 :: rest)
        = Except.error "sources have different nr of points" := by
  intro i rigid s0 rest ⟨s, hmem, hne⟩
  rw [procrustes_alignment]
  rw [if_pos]
  exact List.any_eq_true.mpr ⟨s, hmem, by simpa using fun h => hne h.symm⟩

/-- Witness for C9: two sources with 3 and 4 points. -/
theorem C9_procrustes_mismatch_raises_witness :
    procrustes_alignment (Ident.orig 80) false [wMesh1, wMesh2]
      = Except.error "sources have different nr of points" :=
  C9_procrustes_mismatch_raises (Ident.orig 80) false wMesh1 [wMesh2]
    ⟨wMesh2, by simp, by decide⟩

/-- Witness for C10: adding an object with a non-`Prop3D` actor to a
concrete assembly is a no-op. -/
theorem C10_add_non_prop3d_noop_witness :
    Assembly.add (mkAsm (Ident.orig 0) []) (VObj.mesh wFlatMesh) = mkAsm (Ident.orig 0) [] :=
  (C10_add_non_prop3d_noop (mkAsm (Ident.orig 0) []) (VObj.mesh wFlatMesh)
    (Or.inr ⟨wFlatMesh.actor, rfl, rfl⟩)).1
